/-
Verification of the a-crawler specification against its TypeScript source.

Shallow embedding conventions:
* Pure string manipulation (trim, regex replaces that are pure text rewriting,
  URL normalization) is translated to executable Lean functions over `List Char`
  and `String`.
* DOM-backed collaborators (cheerio / JSDOM / Readability / Turndown internals)
  are not string-rewriting and cannot be embedded; functions that consume them
  are parameterized over those collaborators, while all control flow, thresholds
  and data-shaping of the repository code is embedded faithfully.
* MySQL upserts are modelled as pure functions from the (optional) stored row and
  the bound parameter list to the new row; JavaScript `x || null` parameter
  coercions are modelled explicitly.
* MD5 is an external library call (`crypto.createHash('md5')`); functions using
  it are parameterized over `md5 : String → String`.
* Machine numbers: HTTP status codes and word counts are modelled as `Int`/`Nat`
  (the JS values are small integers, far from any double-precision rounding),
  `junk_score` as `Rat`, and the float comparison `links/items > 0.8` as the
  exact rational comparison (for DOM-sized counts the double rounding error is
  orders of magnitude below the gap between representable ratios).
-/
import Mathlib

namespace ACrawler

/-! ## JavaScript string primitives

`String.prototype.trim`, the regex `\s` class and the newline-collapse
`/\n{3,}/g → "\n\n"` used throughout `markdownConverter.ts` /
`enhancedMarkdownConverter.ts` / `hash.ts`.  We model the ASCII whitespace
characters (the inputs manipulated by the crawler's own string rewriting are
ASCII markers and HTML text; the proofs below only need that `'\n'` is
whitespace). -/

/-- JS whitespace (ASCII fragment of the `\s` class and of `String.trim`). -/
def isWs (c : Char) : Bool :=
  c = ' ' || c = '\t' || c = '\n' || c = '\r' || c = '\x0b' || c = '\x0c'

/-- Leading-whitespace removal, the left half of `String.prototype.trim`. -/
def trimLeftC (l : List Char) : List Char := l.dropWhile isWs

/-- Trailing-whitespace removal, the right half of `String.prototype.trim`:
keep a character iff something non-whitespace survives after it. -/
def trimRightC : List Char → List Char
  | [] => []
  | c :: cs =>
    match trimRightC cs with
    | [] => if isWs c then [] else [c]
    | r => c :: r

/-- `String.prototype.trim`. -/
def jsTrim (l : List Char) : List Char := trimRightC (trimLeftC l)

/-- Output of one maximal run of `k` newlines under the global replace
`/\n{3,}/g → "\n\n"`: runs of three or more become two, shorter runs are kept. -/
def nlRun (k : Nat) : List Char := List.replicate (if 3 ≤ k then 2 else k) '\n'

/-- Scanner for the global replace `/\n{3,}/g → "\n\n"`; `k` counts the
newline run currently open. -/
def collapseAux : Nat → List Char → List Char
  | k, [] => nlRun k
  | k, c :: cs =>
    if c = '\n' then collapseAux (k + 1) cs else nlRun k ++ c :: collapseAux 0 cs

/-- The global replace `/\n{3,}/g → "\n\n"`. -/
def collapseNl (l : List Char) : List Char := collapseAux 0 l

/-- `s.trim()` on `String`. -/
def jsTrimS (s : String) : String := ⟨jsTrim s.data⟩

/-- `s.replace(/\n{3,}/g, "\n\n")` on `String`. -/
def collapseNlS (s : String) : String := ⟨collapseNl s.data⟩

/-! ## The STRUCT-marker strip regex

`STRUCT_MARKER_REGEX = /<!-- STRUCT:[A-Z_]+:[A-Z_]+ -->/g` from
`enhancedMarkdown.types.ts`, applied with `String.prototype.replace` (global,
left-to-right, non-overlapping). -/

/-- Character class `[A-Z_]`. -/
def isMarkerChar (c : Char) : Bool := ('A' ≤ c && c ≤ 'Z') || c = '_'

/-- Strip a literal prefix; `some rest` on match. -/
def dropLit : List Char → List Char → Option (List Char)
  | [], l => some l
  | _ :: _, [] => none
  | p :: ps, c :: cs => if c = p then dropLit ps cs else none

/-- Try to match `<!-- STRUCT:[A-Z_]+:[A-Z_]+ -->` at the head of `l`,
returning the remainder on success. -/
def matchMarkerAt (l : List Char) : Option (List Char) :=
  match dropLit "<!-- STRUCT:".data l with
  | none => none
  | some r1 =>
    if (r1.takeWhile isMarkerChar).isEmpty then none
    else
      match r1.dropWhile isMarkerChar with
      | ':' :: r3 =>
        if (r3.takeWhile isMarkerChar).isEmpty then none
        else
          match dropLit " -->".data (r3.dropWhile isMarkerChar) with
          | some r5 => some r5
          | none => none
      | _ => none

/-- Fuel-indexed scanner for the global replace of `STRUCT_MARKER_REGEX` with
the empty string; the fuel is an upper bound on the input length (a successful
marker match always consumes at least one character, see
`matchMarkerAt_length`), so with fuel `l.length` the `0`-fuel branch is never
reached. -/
def stripMarkersFuel : Nat → List Char → List Char
  | _, [] => []
  | 0, l => l
  | n + 1, c :: cs =>
    match matchMarkerAt (c :: cs) with
    | some rest => stripMarkersFuel n rest
    | none => c :: stripMarkersFuel n cs

/-- The global replace of `STRUCT_MARKER_REGEX` with the empty string. -/
def stripMarkers (l : List Char) : List Char := stripMarkersFuel l.length l

/-- `s.replace(STRUCT_MARKER_REGEX, '')` on `String`. -/
def stripMarkersS (s : String) : String := ⟨stripMarkers s.data⟩

/-- `plainMarkdown` exactly as computed by `htmlToEnhancedMarkdown` steps 4-5
(`enhancedMarkdownConverter.ts`): strip the markers, `trim()`, collapse runs of
three or more newlines, `trim()` again. -/
def plainMarkdownOf (marked : String) : String :=
  jsTrimS (collapseNlS (jsTrimS (stripMarkersS marked)))

/-- `stripStructuralMarkers` (`enhancedMarkdownConverter.ts`): strip the
markers, collapse newline runs, final `trim()`. -/
def stripStructuralMarkers (marked : String) : String :=
  jsTrimS (collapseNlS (stripMarkersS marked))

/-- The transformation exactly as the claim states it: the marker-strip regex
followed by the newline collapse, with no trim. -/
def c7ClaimTransform (marked : String) : String :=
  collapseNlS (stripMarkersS marked)

/-! ## Database data model (`database.types.ts`, `schema.sql`) -/

/-- `CrawlStatus` from `database.types.ts` / the `crawl_status` ENUM. -/
inductive CrawlStatus where
  | OK
  | REDIRECT_ALIAS
  | NOT_FOUND
  | SOFT_404
  | ERROR
deriving DecidableEq, Repr

/-- `ExtractionMethod` from `database.types.ts`: note the code's type has
exactly these four values. -/
inductive ExtractionMethod where
  | readability
  | semantic
  | cms_pattern
  | fallback
deriving DecidableEq, Repr

/-- A stored `crawler_pages` row (nullable columns are `Option`;
`redirect_chain` is a JSON array column, modelled by the decoded list —
`JSON.stringify` on string arrays is injective; `last_crawled_at` is an
abstract clock tick). -/
structure PageRow where
  final_url : String
  requested_url_original : Option String
  status_code : Option Int
  crawl_status : CrawlStatus
  redirect_chain : Option (List String)
  html_content : Option String
  clean_html : Option String
  markdown : Option String
  title : Option String
  h1 : Option String
  meta_description : Option String
  word_count : Int
  content_hash : Option String
  sitemap_type_hint : Option String
  fetch_mode : Option String
  extraction_method : Option ExtractionMethod
  junk_score : Option Rat
  last_error : Option String
  last_crawled_at : Nat
  run_id : Option String
deriving DecidableEq, Repr

/-- `CrawlerPageInsert` from `database.types.ts` (optional TS fields are
`Option`). -/
structure CrawlerPageInsert where
  final_url : String
  requested_url_original : Option String := none
  status_code : Option Int := none
  crawl_status : CrawlStatus
  redirect_chain : Option (List String) := none
  html_content : Option String := none
  clean_html : Option String := none
  markdown : Option String := none
  title : Option String := none
  h1 : Option String := none
  meta_description : Option String := none
  word_count : Option Int := none
  content_hash : Option String := none
  fetch_mode : Option String := none
  extraction_method : Option ExtractionMethod := none
  junk_score : Option Rat := none
  sitemap_type_hint : Option String := none
  last_error : Option String := none
  run_id : Option String := none
deriving Repr

/-- The `page.x || null` parameter binding of `upsertPage` (`db/queries.ts`)
for string fields: `undefined` and the empty string both bind as SQL NULL. -/
def strParam : Option String → Option String
  | some s => if s = "" then none else some s
  | none => none

/-- `page.status_code || null`: `undefined` and `0` bind as NULL. -/
def intParam : Option Int → Option Int
  | some n => if n = 0 then none else some n
  | none => none

/-- `page.word_count || 0`: this parameter is never NULL. -/
def wcParam (o : Option Int) : Int := o.getD 0

/-- `page.junk_score || null`: `undefined` and `0` bind as NULL. -/
def ratParam : Option Rat → Option Rat
  | some q => if q = 0 then none else some q
  | none => none

/-- `upsertPage` from `db/queries.ts`: `INSERT ... ON DUPLICATE KEY UPDATE`
on `crawler_pages`, keyed by `final_url`.  `existing` is the stored row hit by
the duplicate key (or `none` for a fresh insert), `now` is
`CURRENT_TIMESTAMP`.  The update list is exactly the SQL:
`status_code`/`crawl_status`/`redirect_chain`/`fetch_mode`/`last_error`/
`run_id` always from `VALUES(...)`, `html_content`/`clean_html` guarded by the
content-hash gate `VALUES(content_hash) IS NOT NULL AND VALUES(content_hash)
!= COALESCE(content_hash, '')`, the rest by `COALESCE(VALUES(col), col)`.
`nav_structure` and `structural_stats` are not columns of this statement. -/
def upsertPage (existing : Option PageRow) (p : CrawlerPageInsert) (now : Nat) : PageRow :=
  match existing with
  | none =>
    { final_url := p.final_url
      requested_url_original := strParam p.requested_url_original
      status_code := intParam p.status_code
      crawl_status := p.crawl_status
      redirect_chain := p.redirect_chain
      html_content := strParam p.html_content
      clean_html := strParam p.clean_html
      markdown := strParam p.markdown
      title := strParam p.title
      h1 := strParam p.h1
      meta_description := strParam p.meta_description
      word_count := wcParam p.word_count
      content_hash := strParam p.content_hash
      sitemap_type_hint := strParam p.sitemap_type_hint
      fetch_mode := strParam p.fetch_mode
      extraction_method := p.extraction_method
      junk_score := ratParam p.junk_score
      last_error := strParam p.last_error
      last_crawled_at := now
      run_id := strParam p.run_id }
  | some old =>
    let newHash := strParam p.content_hash
    let gate : Bool :=
      match newHash with
      | none => false
      | some h => h != old.content_hash.getD ""
    { old with
      status_code := intParam p.status_code
      crawl_status := p.crawl_status
      redirect_chain := p.redirect_chain
      fetch_mode := strParam p.fetch_mode
      html_content := if gate then strParam p.html_content else old.html_content
      clean_html := if gate then strParam p.clean_html else old.clean_html
      markdown := (strParam p.markdown).or old.markdown
      title := (strParam p.title).or old.title
      h1 := (strParam p.h1).or old.h1
      meta_description := (strParam p.meta_description).or old.meta_description
      word_count := wcParam p.word_count
      extraction_method := p.extraction_method.or old.extraction_method
      junk_score := (ratParam p.junk_score).or old.junk_score
      content_hash := newHash.or old.content_hash
      sitemap_type_hint := (strParam p.sitemap_type_hint).or old.sitemap_type_hint
      last_error := strParam p.last_error
      last_crawled_at := now
      run_id := strParam p.run_id }

/-! ## Hashing (`utils/hash.ts`) and the requestHandler row (`core/crawler.ts`) -/

/-- JS `a || b` on strings. -/
def jsOrS (a b : String) : String := if a = "" then b else a

/-- Scanner for `s.replace(/\s+/g, ' ')`: each maximal whitespace run becomes
one space; the flag records whether a run is already open. -/
def collapseWsAux : Bool → List Char → List Char
  | _, [] => []
  | inRun, c :: cs =>
    if isWs c then
      if inRun then collapseWsAux true cs else ' ' :: collapseWsAux true cs
    else c :: collapseWsAux false cs

/-- `html.replace(/\s+/g, ' ').trim()` — the whitespace normalization of
`hashHtmlContent`. -/
def normalizeWsS (s : String) : String := jsTrimS ⟨collapseWsAux false s.data⟩

/-- `hashHtmlContent` from `utils/hash.ts`, parameterized over the external
`crypto` MD5. -/
def hashHtmlContent (md5 : String → String) (html : String) : String :=
  if html = "" then "" else md5 (normalizeWsS html)

/-- Result record of `extractContent` (`contentExtractor.ts`). -/
structure ExtractionResult where
  cleanHtml : String
  extractionMethod : ExtractionMethod
  wordCount : Nat
  success : Bool
deriving DecidableEq, Repr

/-- The DOM-backed collaborators of `contentExtractor.ts`: `cleanHtml` /
`removeElements` / `extractBySelectors` come from `htmlCleaner.ts` (cheerio),
`readability` wraps JSDOM + `@mozilla/readability` (`none` models a thrown
error, a null article or null content), `countWords` wraps the JSDOM text
extraction. -/
structure ExtractPrims where
  cleanHtml : String → String
  removeElements : String → List String → String
  extractBySelectors : String → List String → Option String
  readability : String → String → Option String
  countWords : String → Nat

/-- `READABILITY_MIN_WORDS` from `config/constants.ts`. -/
def READABILITY_MIN_WORDS : Nat := 100

/-- `CMS_CONTENT_SELECTORS` from `config/constants.ts`. -/
def CMS_CONTENT_SELECTORS : List String :=
  [".entry-content", ".post-content", ".article-content", ".content-area",
   "#content", ".main-content", "[itemprop=\"articleBody\"]"]

/-- The semantic selector list from `extractBySemantic`. -/
def semanticSelectors : List String :=
  ["article", "main", "[role=\"main\"]", "[itemprop=\"articleBody\"]"]

/-- Steps 1-2 of `extractContent`: clean, then apply domain-specific removal
selectors when a non-empty list is provided. -/
def cleanedInput (P : ExtractPrims) (html : String)
    (removeSelectors : Option (List String)) : String :=
  let c := P.cleanHtml html
  match removeSelectors with
  | some rs => if rs.length > 0 then P.removeElements c rs else c
  | none => c

/-- `extractBySemantic` / `extractByCmsPatterns` body: first selector with a
truthy extraction gives a result tagged with `m`. -/
def tryBySelectors (P : ExtractPrims) (cleaned : String) (sels : List String)
    (m : ExtractionMethod) : Option ExtractionResult :=
  match P.extractBySelectors cleaned sels with
  | some e => if e = "" then none else some ⟨e, m, P.countWords e, true⟩
  | none => none

/-- `extractContent` from `contentExtractor.ts`: the strategy cascade
domain selectors → Readability → semantic tags → CMS patterns → fallback, each
success gated by `wordCount ≥ READABILITY_MIN_WORDS` except the fallback.
Note the domain-selector branch tags its result `cms_pattern`. -/
def extractContent (P : ExtractPrims) (html url : String)
    (domainSelectors removeSelectors : Option (List String)) : ExtractionResult :=
  if html = "" then ⟨"", .fallback, 0, false⟩
  else
    let cleaned := cleanedInput P html removeSelectors
    let domainStep : Option ExtractionResult :=
      match domainSelectors with
      | some ds =>
        if ds.length > 0 then
          match P.extractBySelectors cleaned ds with
          | some e =>
            if e = "" then none
            else
              let wc := P.countWords e
              if wc ≥ READABILITY_MIN_WORDS then some ⟨e, .cms_pattern, wc, true⟩
              else none
          | none => none
        else none
      | none => none
    match domainStep with
    | some r => r
    | none =>
      let readStep : Option ExtractionResult :=
        match P.readability cleaned url with
        | some content =>
          if content = "" then none
          else
            let wc := P.countWords content
            if wc ≥ READABILITY_MIN_WORDS then some ⟨content, .readability, wc, true⟩
            else none
        | none => none
      match readStep with
      | some r => r
      | none =>
        let semStep : Option ExtractionResult :=
          match tryBySelectors P cleaned semanticSelectors .semantic with
          | some r => if r.wordCount ≥ READABILITY_MIN_WORDS then some r else none
          | none => none
        match semStep with
        | some r => r
        | none =>
          let cmsStep : Option ExtractionResult :=
            match tryBySelectors P cleaned CMS_CONTENT_SELECTORS .cms_pattern with
            | some r => if r.wordCount ≥ READABILITY_MIN_WORDS then some r else none
            | none => none
          match cmsStep with
          | some r => r
          | none => ⟨cleaned, .fallback, P.countWords cleaned, true⟩

/-- The `crawl_status` classification in the `requestHandler` of `runCrawl`
(`core/crawler.ts`): 404/410 → NOT_FOUND, other ≥ 400 → ERROR, everything
else → OK.  No other assignment to `crawlStatus` exists in the handler. -/
def classifyCrawlStatus (statusCode : Int) : CrawlStatus :=
  if statusCode = 404 || statusCode = 410 then .NOT_FOUND
  else if statusCode ≥ 400 then .ERROR
  else .OK

/-! ## Soft-404 patterns (`config/constants.ts`)

The regexes are alternations of literal lowercase segments joined by `.*`;
existence of a match is existence of the segments in order (we do not model
that `.` excludes newlines — the instances proved below are single-segment
patterns, where the distinction is empty). -/

/-- Remainder of `hay` after the first occurrence of `needle`. -/
def findAfter (needle : List Char) : List Char → Option (List Char)
  | [] => if needle.isEmpty then some [] else none
  | c :: cs =>
    match dropLit needle (c :: cs) with
    | some r => some r
    | none => findAfter needle cs

/-- Ordered-segment matching for a `seg₁.*seg₂.*…` regex. -/
def containsInOrder : List Char → List (List Char) → Bool
  | _, [] => true
  | hay, n :: ns =>
    match findAfter n hay with
    | some rest => containsInOrder rest ns
    | none => false

/-- Lowercasing for the `/i` regex flag. -/
def toLowerS (s : String) : String := ⟨s.data.map Char.toLower⟩

/-- `SOFT_404_TITLE_PATTERNS.some(p => p.test(title))`. -/
def soft404TitleMatch (title : String) : Bool :=
  let t := (toLowerS title).data
  containsInOrder t ["not found".data] ||
  containsInOrder t ["404".data] ||
  containsInOrder t ["page".data, "not".data, "exist".data] ||
  containsInOrder t ["page".data, "cannot".data, "be".data, "found".data] ||
  containsInOrder t ["no".data, "page".data, "found".data]

/-- `SOFT_404_BODY_PATTERNS.some(p => p.test(body))`. -/
def soft404BodyMatch (body : String) : Bool :=
  let t := (toLowerS body).data
  containsInOrder t ["sorry".data, "page".data, "not".data, "found".data] ||
  containsInOrder t ["the".data, "page".data, "you".data, "requested".data,
    "could".data, "not".data, "be".data, "found".data] ||
  containsInOrder t ["we".data, "can".data, "t".data, "find".data,
    "that".data, "page".data] ||
  containsInOrder t ["404".data, "error".data]

/-- The `pageData` record built by the `requestHandler` of `runCrawl`
(`core/crawler.ts`): status classification, redirect chain from
`[requested, final]` when they differ, `content_hash` over
`extraction.cleanHtml || htmlContent`, `clean_html` from `extraction.cleanHtml`,
markdown only when extraction succeeded, metadata with `|| undefined`
coercions. `markdownConv` stands for the `htmlToMarkdown` output and
`junkScore` for `calculateJunkScore` (both DOM-backed). -/
def mkCrawledInsert (md5 : String → String) (finalUrl requestedUrl : String)
    (statusCode : Int) (htmlContent : String) (extraction : ExtractionResult)
    (markdownConv : String) (title h1 metaDescription : Option String)
    (junkScore : Rat) (sitemapTypeHint : Option String) (runId : String) :
    CrawlerPageInsert :=
  let redirectChain : List String :=
    if requestedUrl ≠ finalUrl then [requestedUrl, finalUrl] else []
  { final_url := finalUrl
    requested_url_original := some requestedUrl
    status_code := some statusCode
    crawl_status := classifyCrawlStatus statusCode
    redirect_chain := if redirectChain.length > 0 then some redirectChain else none
    html_content := some htmlContent
    clean_html := some extraction.cleanHtml
    markdown := some (if extraction.success then markdownConv else "")
    title := strParam title
    h1 := strParam h1
    meta_description := strParam metaDescription
    word_count := some (extraction.wordCount : Int)
    content_hash := some (hashHtmlContent md5 (jsOrS extraction.cleanHtml htmlContent))
    fetch_mode := some "cheerio"
    extraction_method := some extraction.extractionMethod
    junk_score := some junkScore
    sitemap_type_hint := strParam sitemapTypeHint
    run_id := some runId }

/-- The `pageData` record built by the `failedRequestHandler` of `runCrawl`:
an ERROR row carrying only `final_url`, `requested_url_original`,
`last_error` and `run_id`. -/
def mkFailedInsert (finalUrl url errMsg runId : String) : CrawlerPageInsert :=
  { final_url := finalUrl
    requested_url_original := some url
    crawl_status := .ERROR
    last_error := some errMsg
    run_id := some runId }

/-! ## URL normalizer (`core/urlNormalizer.ts`)

`normalizeUrl` uses the WHATWG `URL` API.  We embed a parser for absolute
`http(s)` URLs of the shape `scheme://host/path?query#fragment` without
userinfo, port or non-ASCII components (the URL API performs no
empty-segment path normalization, so e.g. `"/a//"` round-trips through
`URL` unchanged, as in our model).  `localeCompare` on the plain
lowercase-ASCII parameter names used here orders like code-unit order. -/

/-- `TRACKING_PARAMS` from `config/constants.ts`. -/
def TRACKING_PARAMS : List String :=
  ["utm_source", "utm_medium", "utm_campaign", "utm_term", "utm_content",
   "utm_id", "fbclid", "gclid", "msclkid", "ref", "mc_cid", "mc_eid",
   "_ga", "_gl", "gad_source", "campaignid", "adgroupid"]

/-- Split at the first occurrence of `sep`: characters before it, and the
remainder after it when present. -/
def splitOnFirst (sep : Char) : List Char → List Char × Option (List Char)
  | [] => ([], none)
  | c :: cs =>
    if c = sep then ([], some cs)
    else
      let r := splitOnFirst sep cs
      (c :: r.1, r.2)

/-- Split on every occurrence of `sep` (the result is never empty). -/
def splitAll (sep : Char) : List Char → List (List Char)
  | [] => [[]]
  | c :: cs =>
    match splitAll sep cs with
    | [] => [[c]]
    | h :: t => if c = sep then [] :: h :: t else (c :: h) :: t

/-- Parsed URL components. -/
structure UrlObj where
  scheme : List Char
  host : List Char
  path : List Char
  query : List Char
deriving Repr

/-- Parse `scheme://host[/path][?query][#fragment]`; `none` models the `URL`
constructor throwing (no `://`, or an empty host). -/
def parseUrl (l : List Char) : Option UrlObj :=
  match splitOnFirst ':' l with
  | (scheme, some rest) =>
    match dropLit "//".data rest with
    | some hostRest =>
      let hostEnd := fun (c : Char) => !(c = '/' || c = '?' || c = '#')
      let host := hostRest.takeWhile hostEnd
      let after := hostRest.dropWhile hostEnd
      if host.isEmpty then none
      else
        let pathEnd := fun (c : Char) => !(c = '?' || c = '#')
        let path := after.takeWhile pathEnd
        let afterPath := after.dropWhile pathEnd
        let query :=
          match afterPath with
          | '?' :: qf => qf.takeWhile (fun c => !(c = '#'))
          | _ => []
        some { scheme := scheme, host := host, path := path, query := query }
    | none => none
  | (_, none) => none

/-- `new URLSearchParams(search)` parse: split on `&`, drop empty segments,
split each segment at its first `=` (a missing value is the empty string). -/
def parseQuery (q : List Char) : List (List Char × List Char) :=
  (splitAll '&' q).filterMap fun seg =>
    if seg.isEmpty then none
    else
      let kv := splitOnFirst '=' seg
      some (kv.1, kv.2.getD [])

/-- Strict code-unit comparison of character lists (the order
`a.localeCompare(b)` induces on the plain ASCII names involved). -/
def ltChars : List Char → List Char → Bool
  | [], [] => false
  | [], _ :: _ => true
  | _ :: _, [] => false
  | a :: as_, b :: bs => if a = b then ltChars as_ bs else decide (a < b)

/-- Stable insertion of a pair into a key-sorted list. -/
def insertPair (p : List Char × List Char) :
    List (List Char × List Char) → List (List Char × List Char)
  | [] => [p]
  | q :: qs => if ltChars q.1 p.1 then q :: insertPair p qs else p :: q :: qs

/-- The stable key sort of `Array.prototype.sort` with the
`localeCompare` comparator. -/
def sortPairs : List (List Char × List Char) → List (List Char × List Char)
  | [] => []
  | p :: ps => insertPair p (sortPairs ps)

/-- `URLSearchParams.toString()` on plain-ASCII pairs: `k=v` joined by `&`. -/
def serializeQuery : List (List Char × List Char) → List Char
  | [] => []
  | [p] => p.1 ++ '=' :: p.2
  | p :: ps => p.1 ++ '=' :: p.2 ++ '&' :: serializeQuery ps

/-- ASCII lowercasing of a component. -/
def toLowerChars (l : List Char) : List Char := l.map Char.toLower

/-- The `url.match(/^https?:\/\//i)` protocol test. -/
def startsWithHttpProto (l : List Char) : Bool :=
  let low := toLowerChars l
  (dropLit "http://".data low).isSome || (dropLit "https://".data low).isSome

/-- Last-character test for a trailing `/`. -/
def endsWithSlash (l : List Char) : Bool :=
  match l.getLast? with
  | some '/' => true
  | _ => false

/-- `normalizeUrl` from `core/urlNormalizer.ts`: trim; prepend `https://` when
the protocol is missing; parse; lowercase the hostname; drop the fragment;
delete tracking parameters; sort the remaining query pairs; strip one trailing
slash unless the path is exactly `/`; serialize. -/
def normalizeUrl (url : String) : Except String String :=
  if url = "" then .error "Invalid URL: must be a non-empty string"
  else
    let t := jsTrim url.data
    let withProto := if startsWithHttpProto t then t else "https://".data ++ t
    match parseUrl withProto with
    | none => .error ("Failed to normalize URL \"" ++ url ++ "\"")
    | some u =>
      let host := toLowerChars u.host
      let kept := (parseQuery u.query).filter
        (fun p => !(TRACKING_PARAMS.map String.data).contains p.1)
      let qs := serializeQuery (sortPairs kept)
      let pathname0 := if u.path.isEmpty then ['/'] else u.path
      let pathname :=
        if pathname0 != ['/'] && endsWithSlash pathname0 then pathname0.dropLast
        else pathname0
      .ok ⟨toLowerChars u.scheme ++ "://".data ++ host ++ pathname ++
           (if qs.isEmpty then [] else '?' :: qs)⟩

/-! ## Markdown list suppression (`markdownConverter.ts`, `smartLists` rule)

The Turndown rule filter counts `li` descendants and `a` descendants of a
`ul`/`ol` node and drops the list (empty replacement) exactly when
`listItems.length > 0 && linksInList.length / listItems.length > 0.8`. -/

/-- The `smartLists` filter predicate: `true` means the list is classified as
a navigation list and removed from the Markdown. -/
def smartListsIsNav (liCount aCount : Nat) : Bool :=
  decide (0 < liCount) && decide (((aCount : Rat)) / ((liCount : Rat)) > (0.8 : Rat))

/-! ## Navigation extractor (`extraction/navExtractor.ts`)

Cheerio menu walking is embedded over the li-tree the selectors produce: a
container is the list of its direct `li` children (the `> li` branch of
`extractMenuItems`); each `li` carries the result of
`$li.find('> a, > span > a').first()` — `none` when absent, otherwise href,
computed label and whether the anchor contains an `img` — and the li children
of its first `> ul.sub-menu, > ul.dropdown-menu, > .sub-menu, > ul` match.
`normalizeUrlSafe(·, baseUrl)` and `isExternalLink(·, baseUrl)` are passed as
the functions `resolve` / `isExt`. -/

/-- `s.startsWith(p)` on strings (executable prefix test). -/
def strStartsWith (s p : String) : Bool := (dropLit p.data s.data).isSome

/-- `StructuralElementType` from `enhancedMarkdown.types.ts` /
`navigation.types.ts`. -/
inductive StructuralElementType where
  | faq_module
  | toc_or_jump
  | breadcrumb
  | template_cta
  | accordion
  | testimonial
  | author_bio
  | related_posts
deriving DecidableEq, Repr

/-- `LinkSourceType` from `navigation.types.ts`. -/
inductive LinkSourceType where
  | contextual_body
  | faq_module
  | toc_or_jump
  | breadcrumb
  | primary_nav
  | footer
  | template_cta
  | repeated_block
  | related_posts
  | author_bio
  | testimonial
deriving DecidableEq, Repr

/-- `mapStructuralType` from `navExtractor.ts` (accordion maps to
`faq_module`). -/
def mapStructuralType : StructuralElementType → LinkSourceType
  | .faq_module => .faq_module
  | .toc_or_jump => .toc_or_jump
  | .breadcrumb => .breadcrumb
  | .template_cta => .template_cta
  | .accordion => .faq_module
  | .testimonial => .testimonial
  | .author_bio => .author_bio
  | .related_posts => .related_posts

/-- `NavItem` from `navigation.types.ts`. -/
structure NavItem where
  url : String
  label : String
  depth : Nat
  order : Nat
  parent_labels : List String := []
  is_external : Bool
  link_type : String
deriving DecidableEq, Repr

/-- The first anchor found under an `li` (href attribute with the `|| ''`
default, the computed label, and whether it contains an `img`). -/
structure MenuLink where
  href : String
  label : String
  hasImg : Bool
deriving DecidableEq, Repr

/-- An `li` element of a menu: its first anchor, and the `li` children of its
first submenu `ul` (empty list when `$submenu.length === 0`). -/
inductive LiNode where
  | node (link : Option MenuLink) (submenu : List LiNode)
deriving Repr

/-- `extractSubmenuItems` from `navExtractor.ts`: walk the submenu's direct
`li` children with their `each` index `i`, skip items without an anchor, with
an empty href or label, or with a pure-anchor/javascript href, push
`{depth, order := i, parent_labels}` and recurse into a non-empty deeper
submenu with `depth + 1` (the callee returns nothing once `depth > 3`). -/
def extractSubmenuItems (resolve : String → String) (isExt : String → Bool) :
    List LiNode → List String → Nat → Nat → List NavItem
  | [], _, _, _ => []
  | LiNode.node link sub :: rest, parents, depth, i =>
    let tail := extractSubmenuItems resolve isExt rest parents depth (i + 1)
    match link with
    | none => tail
    | some l =>
      if l.href == "" || l.label == "" then tail
      else if l.href == "#" || strStartsWith l.href "javascript:" then tail
      else
        let item : NavItem :=
          { url := resolve l.href, label := l.label, depth := depth, order := i,
            parent_labels := parents, is_external := isExt l.href,
            link_type := if l.hasImg then "image" else "text" }
        let deeper :=
          if sub.isEmpty then []
          else if depth + 1 > 3 then []
          else extractSubmenuItems resolve isExt sub (parents ++ [l.label]) (depth + 1) 0
        item :: (deeper ++ tail)

/-- The loop body of `extractMenuItems` from `navExtractor.ts` over the
container's direct `li` children, accumulating into `items`: top-level items
are pushed with `depth 0` and `order := items.length` (the length of the
accumulated list, submenu descendants included), then the submenu items are
appended in place. -/
def extractMenuItemsGo (resolve : String → String) (isExt : String → Bool) :
    List LiNode → List NavItem → List NavItem
  | [], items => items
  | LiNode.node link sub :: rest, items =>
    match link with
    | none => extractMenuItemsGo resolve isExt rest items
    | some l =>
      if l.label == "" then extractMenuItemsGo resolve isExt rest items
      else
        let hasSubmenu := !sub.isEmpty
        if !hasSubmenu &&
            (l.href == "" || l.href == "#" || strStartsWith l.href "javascript:") then
          extractMenuItemsGo resolve isExt rest items
        else
          let item : NavItem :=
            { url := if l.href != "" && l.href != "#" then resolve l.href else "#",
              label := l.label, depth := 0, order := items.length,
              parent_labels := [], is_external := isExt l.href,
              link_type := if l.hasImg then "image" else "text" }
          let items1 := items ++ [item]
          let items2 :=
            if hasSubmenu then items1 ++ extractSubmenuItems resolve isExt sub [l.label] 1 0
            else items1
          extractMenuItemsGo resolve isExt rest items2

/-- `extractMenuItems` from `navExtractor.ts` on a container with direct `li`
children. -/
def extractMenuItems (resolve : String → String) (isExt : String → Bool)
    (container : List LiNode) : List NavItem :=
  extractMenuItemsGo resolve isExt container []

/-! ## Content links (`navExtractor.ts`, `extractContentLinks`)

The links found by `$mainContent.find('a[href]')` in document order are
embedded as records: href attribute, resolved label
(`$link.text().trim() || img alt || ''`), whether
`$link.closest(CONTENT_EXCLUDE_SELECTORS)` matched, the structural element
type at the link's HTML offset (`none` when `indexOf` fails or no element
contains the offset), and the text of the nearest preceding heading found by
the sibling walk (`none` when both lookups fail). -/

/-- One `a[href]` candidate of the main content region. -/
structure RawLink where
  href : String
  label : String
  excluded : Bool
  structSource : Option StructuralElementType
  precedingHeading : Option String
deriving Repr

/-- `ContentLink` from `navigation.types.ts`. -/
structure ContentLink where
  url : String
  label : String
  source_type : LinkSourceType
  nearest_heading : Option String
  body_position_pct : Nat
  is_external : Bool
deriving DecidableEq, Repr

/-- `Math.round((index / Math.max(totalLinks, 1)) * 100)` (round half up on
the exact ratio of the two small integers). -/
def jsRound100 (i total : Nat) : Nat :=
  let t := max total 1
  (200 * i + t) / (2 * t)

/-- `href.includes('#')`. -/
def containsChar (c : Char) (s : String) : Bool := s.data.contains c

/-- The `$links.each` body of `extractContentLinks`: `i` is the `each` index
over all candidates, `seen` the `seenUrls` set, `cur` the mutable
`currentHeading`.  Skips: empty/`#`/javascript hrefs, excluded ancestors,
empty labels, already-seen normalized URLs.  Pushed entries set the source
type from the structural element (overridden to `toc_or_jump` for anchor
hrefs), the heading state, the position percentage and the external flag. -/
def extractContentLinksGo (resolve : String → String) (isExt : String → Bool)
    (baseUrl : String) (total : Nat) :
    Nat → List String → Option String → List RawLink → List ContentLink
  | _, _, _, [] => []
  | i, seen, cur, lk :: rest =>
    if lk.href == "" || lk.href == "#" || strStartsWith lk.href "javascript:" then
      extractContentLinksGo resolve isExt baseUrl total (i + 1) seen cur rest
    else if lk.excluded then
      extractContentLinksGo resolve isExt baseUrl total (i + 1) seen cur rest
    else if lk.label == "" then
      extractContentLinksGo resolve isExt baseUrl total (i + 1) seen cur rest
    else
      let url := resolve lk.href
      if seen.contains url then
        extractContentLinksGo resolve isExt baseUrl total (i + 1) seen cur rest
      else
        let st0 :=
          match lk.structSource with
          | some t => mapStructuralType t
          | none => LinkSourceType.contextual_body
        let st :=
          if strStartsWith lk.href "#" ||
              (containsChar '#' lk.href && strStartsWith lk.href baseUrl) then
            LinkSourceType.toc_or_jump
          else st0
        let cur2 :=
          match lk.precedingHeading with
          | some h => some h
          | none => cur
        let nh : Option String :=
          match cur2 with
          | some h => if h == "" then none else some h
          | none => none
        { url := url, label := lk.label, source_type := st, nearest_heading := nh,
          body_position_pct := jsRound100 i total, is_external := isExt lk.href }
        :: extractContentLinksGo resolve isExt baseUrl total (i + 1) (url :: seen) cur2 rest

/-- `extractContentLinks` from `navExtractor.ts`. -/
def extractContentLinks (resolve : String → String) (isExt : String → Bool)
    (baseUrl : String) (links : List RawLink) : List ContentLink :=
  extractContentLinksGo resolve isExt baseUrl links.length 0 [] none links

/-- The per-link skip conditions of `extractContentLinks` that do not depend
on the dedup set: kept hrefs are non-empty, not `#`, not javascript, not in an
excluded region, and carry a non-empty label. -/
def linkEligible (lk : RawLink) : Bool :=
  !(lk.href == "" || lk.href == "#" || strStartsWith lk.href "javascript:") &&
  !lk.excluded && !(lk.label == "")

/-- The normalized URLs of the eligible candidates, in document order. -/
def candidateUrls (resolve : String → String) (links : List RawLink) : List String :=
  (links.filter linkEligible).map fun lk => resolve lk.href

/-- First-occurrence deduplication against an already-seen set. -/
def dedupKeepFirst (seen : List String) : List String → List String
  | [] => []
  | u :: us =>
    if seen.contains u then dedupKeepFirst seen us
    else u :: dedupKeepFirst (u :: seen) us

/-! ## Concrete fixtures used by the per-claim instances -/

/-- A fully-populated stored `crawler_pages` row. -/
def demoOldRow : PageRow :=
  { final_url := "https://example.com/page"
    requested_url_original := some "https://example.com/page"
    status_code := some 200
    crawl_status := .OK
    redirect_chain := none
    html_content := some "<html>old</html>"
    clean_html := some "<p>old</p>"
    markdown := some "old markdown"
    title := some "Old Title"
    h1 := some "Old H1"
    meta_description := some "Old description"
    word_count := 500
    content_hash := some "abc123"
    sitemap_type_hint := some "post"
    fetch_mode := some "cheerio"
    extraction_method := some .readability
    junk_score := none
    last_error := none
    last_crawled_at := 1
    run_id := some "run-1" }

/-- A re-crawl insert for the same page carrying the same `content_hash` as
the stored row but a failing status and a regenerated markdown. -/
def sameHashInsert : CrawlerPageInsert :=
  { final_url := "https://example.com/page"
    requested_url_original := some "https://example.com/page"
    status_code := some 500
    crawl_status := .ERROR
    html_content := some "<html>old</html>"
    clean_html := some "<p>old</p>"
    markdown := some "new markdown"
    word_count := some 500
    content_hash := some "abc123"
    fetch_mode := some "cheerio"
    extraction_method := some .readability
    run_id := some "run-2" }

/-- Extraction outcome of a 40-word soft-404 body (fallback strategy, below
the 100-word threshold). -/
def soft404Extraction : ExtractionResult :=
  { cleanHtml := "<p>forty words of body text</p>"
    extractionMethod := .fallback
    wordCount := 40
    success := true }

/-- The row stored by the requestHandler for a `200 Page Not Found` page
(MD5 stands in as a concrete placeholder function). -/
def soft404Row : PageRow :=
  upsertPage none
    (mkCrawledInsert (fun s => "#" ++ s) "https://example.com/missing"
      "https://example.com/missing" 200
      "<html><body><p>forty words of body text</p></body></html>"
      soft404Extraction "md" (some "Page Not Found") (some "Page Not Found")
      none 0 none "run-1") 1

/-- Collaborators for a page whose body the cleaner empties (script-only
body): the cleaner returns the empty string, no selector matches, Readability
yields nothing. -/
def emptyCleanPrims : ExtractPrims :=
  { cleanHtml := fun _ => ""
    removeElements := fun h _ => h
    extractBySelectors := fun _ _ => none
    readability := fun _ _ => none
    countWords := fun _ => 0 }

/-- A raw HTML document whose cleaned body is empty. -/
def scriptOnlyHtml : String := "<script>a</script>"

/-- The extraction obtained for `scriptOnlyHtml`: the fallback returns the
(empty) cleaned body. -/
def emptyCleanExtraction : ExtractionResult :=
  extractContent emptyCleanPrims scriptOnlyHtml "https://example.com/x" none none

/-- The row the requestHandler stores for `scriptOnlyHtml`. -/
def emptyCleanRow : PageRow :=
  upsertPage none
    (mkCrawledInsert (fun s => "#" ++ s) "https://example.com/x"
      "https://example.com/x" 200 scriptOnlyHtml emptyCleanExtraction ""
      none none none 0 none "run-1") 1

/-- The override-selector content returned for the configured host. -/
def overrideContent : String := "MAIN"

/-- Collaborators for a host with a configured domain override whose selector
extracts 150 words of content. -/
def overridePrims : ExtractPrims :=
  { cleanHtml := id
    removeElements := fun h _ => h
    extractBySelectors := fun _ sels => if sels == ["#main"] then some overrideContent else none
    readability := fun _ _ => none
    countWords := fun s => if s == overrideContent then 150 else 0 }

/-- An enhanced markdown document ending in a structural marker. -/
def faqMarked : String := "<!-- STRUCT:FAQ:START -->\nHello\n<!-- STRUCT:FAQ:END -->"

/-- A primary-nav container: a parent item with one submenu child, followed
by a second top-level item. -/
def demoMenu : List LiNode :=
  [LiNode.node (some { href := "/services", label := "Services", hasImg := false })
     [LiNode.node (some { href := "/services/web", label := "Web", hasImg := false }) []],
   LiNode.node (some { href := "/contact", label := "Contact", hasImg := false }) []]

/-! # Theorems

First the supporting lemmas (marker matching lengths, whitespace/trim/collapse
algebra), then one theorem per claim with its witnesses and counterexamples. -/

theorem dropLit_length :
    ∀ (p l r : List Char), dropLit p l = some r → l.length = p.length + r.length := by
  intro p
  induction p with
  | nil => intro l r h; simp [dropLit] at h; simp [h]
  | cons c cs ih =>
    intro l r h
    cases l with
    | nil => simp [dropLit] at h
    | cons d ds =>
      simp only [dropLit] at h
      split at h
      · have := ih ds r h
        simp [this]; omega
      · exact absurd h (by simp)

theorem length_dropWhile_le' (p : Char → Bool) (l : List Char) :
    (l.dropWhile p).length ≤ l.length := by
  induction l with
  | nil => simp [List.dropWhile]
  | cons c cs ih =>
    by_cases h : p c
    · simp [List.dropWhile, h]; omega
    · simp [List.dropWhile, h]

theorem matchMarkerAt_length {l r : List Char} (h : matchMarkerAt l = some r) :
    r.length < l.length := by
  unfold matchMarkerAt at h
  split at h
  · exact absurd h (by simp)
  · rename_i r1 h1
    have hl1 : l.length = 12 + r1.length := dropLit_length _ _ _ h1
    split at h
    · exact absurd h (by simp)
    · split at h
      · rename_i r3 h2
        have h7 : 1 + r3.length ≤ r1.length := by
          have := length_dropWhile_le' isMarkerChar r1
          rw [h2] at this
          simp only [List.length_cons] at this
          omega
        split at h
        · exact absurd h (by simp)
        · split at h
          · rename_i r5 h3
            have h5 : (r3.dropWhile isMarkerChar).length = 4 + r5.length :=
              dropLit_length _ _ _ h3
            have h6 : (r3.dropWhile isMarkerChar).length ≤ r3.length :=
              length_dropWhile_le' _ _
            simp only [Option.some.injEq] at h
            subst h
            omega
          · exact absurd h (by simp)
      · exact absurd h (by simp)


/-! ### Whitespace / trim / newline-collapse algebra -/

theorem isWs_newline : isWs '\n' = true := by decide

theorem nlRun_all_ws {k : Nat} : ∀ c ∈ nlRun k, isWs c = true := by
  intro c hc
  have := List.eq_of_mem_replicate hc
  subst this
  decide

theorem dropWhile_ws_append {w : List Char} (x : List Char)
    (hw : ∀ c ∈ w, isWs c = true) :
    (w ++ x).dropWhile isWs = x.dropWhile isWs := by
  induction w with
  | nil => simp
  | cons c cs ih =>
    have hc : isWs c = true := hw c (by simp)
    simp only [List.cons_append, List.dropWhile_cons, hc, if_true]
    exact ih fun d hd => hw d (by simp [hd])

theorem trimLeftC_nil_of_all_ws {s : List Char} (h : ∀ c ∈ s, isWs c = true) :
    trimLeftC s = [] := by
  induction s with
  | nil => rfl
  | cons c cs ih =>
    have hc : isWs c = true := h c (by simp)
    simp only [trimLeftC, List.dropWhile_cons, hc, if_true]
    exact ih fun d hd => h d (by simp [hd])

theorem trimRightC_nil_of_all_ws {s : List Char} (h : ∀ c ∈ s, isWs c = true) :
    trimRightC s = [] := by
  induction s with
  | nil => rfl
  | cons c cs ih =>
    have hc : isWs c = true := h c (by simp)
    have ihcs : trimRightC cs = [] := ih fun d hd => h d (by simp [hd])
    simp [trimRightC, ihcs, hc]

theorem all_ws_of_trimRightC_nil :
    ∀ {s : List Char}, trimRightC s = [] → ∀ c ∈ s, isWs c = true := by
  intro s
  induction s with
  | nil => intro _ c hc; simp at hc
  | cons c cs ih =>
    intro h d hd
    simp only [trimRightC] at h
    cases hcs : trimRightC cs with
    | nil =>
      rw [hcs] at h
      by_cases hc : isWs c = true
      · rcases List.mem_cons.mp hd with h1 | h1
        · subst h1; exact hc
        · exact ih hcs d h1
      · simp [hc] at h
    | cons r rs => rw [hcs] at h; simp at h

theorem trimRightC_cons (c : Char) (l : List Char) :
    trimRightC (c :: l) =
      if trimRightC l = [] then (if isWs c = true then [] else [c])
      else c :: trimRightC l := by
  by_cases h : trimRightC l = []
  · rw [if_pos h]; simp [trimRightC, h]
  · rw [if_neg h]
    cases hval : trimRightC l with
    | nil => exact absurd hval h
    | cons a as_ => simp [trimRightC, hval]

theorem trimRightC_append (u x : List Char) :
    trimRightC (u ++ x) =
      if trimRightC x = [] then trimRightC u else u ++ trimRightC x := by
  induction u with
  | nil =>
    by_cases hx : trimRightC x = [] <;> simp [trimRightC, hx]
  | cons c u' ih =>
    rw [List.cons_append, trimRightC_cons, trimRightC_cons, ih]
    by_cases hx : trimRightC x = []
    · simp [hx]
    · have hne : ¬ (u' ++ trimRightC x = []) := by
        intro hgoal
        rcases List.append_eq_nil.mp hgoal with ⟨_, h2⟩
        exact hx h2
      simp [hx, hne]

theorem collapseAux_all_ws :
    ∀ (s : List Char) (k : Nat), (∀ c ∈ s, isWs c = true) →
      ∀ c ∈ collapseAux k s, isWs c = true := by
  intro s
  induction s with
  | nil =>
    intro k _ c hc
    exact nlRun_all_ws c hc
  | cons a as_ ih =>
    intro k hall c hc
    by_cases ha : a = '\n'
    · subst ha
      rw [collapseAux, if_pos rfl] at hc
      exact ih (k + 1) (fun d hd => hall d (by simp [hd])) c hc
    · rw [collapseAux, if_neg ha] at hc
      rcases List.mem_append.mp hc with h1 | h1
      · exact nlRun_all_ws c h1
      · rcases List.mem_cons.mp h1 with h2 | h2
        · subst h2; exact hall c (by simp)
        · exact ih 0 (fun d hd => hall d (by simp [hd])) c h2

theorem trimLeftC_collapseAux_congr :
    ∀ (s : List Char) (k k' : Nat),
      trimLeftC (collapseAux k s) = trimLeftC (collapseAux k' s) := by
  intro s
  induction s with
  | nil =>
    intro k k'
    rw [collapseAux, collapseAux,
      trimLeftC_nil_of_all_ws (fun c hc => nlRun_all_ws c hc),
      trimLeftC_nil_of_all_ws (fun c hc => nlRun_all_ws c hc)]
  | cons a as_ ih =>
    intro k k'
    by_cases ha : a = '\n'
    · subst ha
      rw [collapseAux, collapseAux, if_pos rfl, if_pos rfl]
      exact ih (k + 1) (k' + 1)
    · rw [collapseAux, collapseAux, if_neg ha, if_neg ha]
      unfold trimLeftC
      rw [dropWhile_ws_append _ (fun c hc => nlRun_all_ws c hc),
        dropWhile_ws_append _ (fun c hc => nlRun_all_ws c hc)]

theorem trimLeftC_collapse_trimLeftC (s : List Char) :
    trimLeftC (collapseNl s) = trimLeftC (collapseNl (trimLeftC s)) := by
  induction s with
  | nil => rfl
  | cons a as_ ih =>
    by_cases hws : isWs a = true
    · have htl : trimLeftC (a :: as_) = trimLeftC as_ := by
        simp [trimLeftC, List.dropWhile_cons, hws]
      by_cases ha : a = '\n'
      · subst ha
        rw [htl, ← ih]
        show trimLeftC (collapseAux 0 ('\n' :: as_)) = trimLeftC (collapseAux 0 as_)
        rw [collapseAux, if_pos rfl]
        exact trimLeftC_collapseAux_congr as_ 1 0
      · rw [htl, ← ih]
        show trimLeftC (collapseAux 0 (a :: as_)) = trimLeftC (collapseNl as_)
        rw [collapseAux, if_neg ha]
        have h0 : nlRun 0 = ([] : List Char) := by
          simp [nlRun]
        rw [h0, List.nil_append]
        show trimLeftC (a :: collapseAux 0 as_) = trimLeftC (collapseNl as_)
        simp [trimLeftC, List.dropWhile_cons, hws, collapseNl]
    · have htl : trimLeftC (a :: as_) = a :: as_ := by
        simp [trimLeftC, List.dropWhile_cons, hws]
      rw [htl]

theorem trimRightC_collapseAux_trimRightC :
    ∀ (s : List Char) (k : Nat),
      trimRightC (collapseAux k s) = trimRightC (collapseAux k (trimRightC s)) := by
  intro s
  induction s with
  | nil => intro k; rfl
  | cons a as_ ih =>
    intro k
    by_cases has : trimRightC as_ = []
    · have hws : ∀ c ∈ as_, isWs c = true := all_ws_of_trimRightC_nil has
      by_cases hwa : isWs a = true
      · have htr : trimRightC (a :: as_) = [] := by
          simp [trimRightC, has, hwa]
        rw [htr]
        have hall : ∀ c ∈ (a :: as_ : List Char), isWs c = true := by
          intro c hc
          rcases List.mem_cons.mp hc with h1 | h1
          · subst h1; exact hwa
          · exact hws c h1
        rw [trimRightC_nil_of_all_ws (collapseAux_all_ws (a :: as_) k hall),
          trimRightC_nil_of_all_ws
            (collapseAux_all_ws [] k (by intro c hc; simp at hc))]
      · have ha : a ≠ '\n' := fun h => hwa (h ▸ isWs_newline)
        have htr : trimRightC (a :: as_) = [a] := by
          simp [trimRightC, has, hwa]
        rw [htr, collapseAux, if_neg ha, collapseAux, if_neg ha]
        have hsplit : nlRun k ++ a :: collapseAux 0 as_ =
            (nlRun k ++ [a]) ++ collapseAux 0 as_ := by
          simp
        rw [hsplit, trimRightC_append]
        have hcs : trimRightC (collapseAux 0 as_) = [] :=
          trimRightC_nil_of_all_ws (collapseAux_all_ws as_ 0 hws)
        rw [if_pos hcs]
        have h0 : collapseAux 0 ([] : List Char) = [] := by
          simp [collapseAux, nlRun]
        rw [h0]
    · by_cases ha : a = '\n'
      · subst ha
        have htr : trimRightC ('\n' :: as_) = '\n' :: trimRightC as_ := by
          cases hval : trimRightC as_ with
          | nil => exact absurd hval has
          | cons r rs => simp [trimRightC, hval]
        rw [htr, collapseAux, if_pos rfl, collapseAux, if_pos rfl]
        exact ih (k + 1)
      · have htr : trimRightC (a :: as_) = a :: trimRightC as_ := by
          cases hval : trimRightC as_ with
          | nil => exact absurd hval has
          | cons r rs => simp [trimRightC, hval]
        rw [htr, collapseAux, if_neg ha, collapseAux, if_neg ha]
        have hsplit1 : nlRun k ++ a :: collapseAux 0 as_ =
            (nlRun k ++ [a]) ++ collapseAux 0 as_ := by simp
        have hsplit2 : nlRun k ++ a :: collapseAux 0 (trimRightC as_) =
            (nlRun k ++ [a]) ++ collapseAux 0 (trimRightC as_) := by simp
        rw [hsplit1, hsplit2,
          trimRightC_append (nlRun k ++ [a]) (collapseAux 0 as_),
          trimRightC_append (nlRun k ++ [a]) (collapseAux 0 (trimRightC as_)),
          ih 0]

theorem trimRightC_trimLeftC_comm :
    ∀ y : List Char, trimRightC (trimLeftC y) = trimLeftC (trimRightC y) := by
  intro y
  induction y with
  | nil => rfl
  | cons c y' ih =>
    by_cases hc : isWs c = true
    · have htl : trimLeftC (c :: y') = trimLeftC y' := by
        simp [trimLeftC, List.dropWhile_cons, hc]
      rw [htl, ih]
      by_cases hy : trimRightC y' = []
      · have htr : trimRightC (c :: y') = [] := by simp [trimRightC, hy, hc]
        rw [htr, hy]
      · have htr : trimRightC (c :: y') = c :: trimRightC y' := by
          cases hval : trimRightC y' with
          | nil => exact absurd hval hy
          | cons r rs => simp [trimRightC, hval]
        rw [htr]
        simp [trimLeftC, List.dropWhile_cons, hc]
    · have htl : trimLeftC (c :: y') = c :: y' := by
        simp [trimLeftC, List.dropWhile_cons, hc]
      rw [htl]
      by_cases hy : trimRightC y' = []
      · have htr : trimRightC (c :: y') = [c] := by simp [trimRightC, hy, hc]
        rw [htr]
        simp [trimLeftC, List.dropWhile_cons, hc]
      · have htr : trimRightC (c :: y') = c :: trimRightC y' := by
          cases hval : trimRightC y' with
          | nil => exact absurd hval hy
          | cons r rs => simp [trimRightC, hval]
        rw [htr]
        simp [trimLeftC, List.dropWhile_cons, hc]

theorem jsTrim_collapse_jsTrim (s : List Char) :
    jsTrim (collapseNl (jsTrim s)) = jsTrim (collapseNl s) := by
  unfold jsTrim
  calc trimRightC (trimLeftC (collapseNl (trimRightC (trimLeftC s))))
      = trimLeftC (trimRightC (collapseNl (trimRightC (trimLeftC s)))) :=
        trimRightC_trimLeftC_comm _
    _ = trimLeftC (trimRightC (collapseNl (trimLeftC s))) := by
        unfold collapseNl
        rw [← trimRightC_collapseAux_trimRightC (trimLeftC s) 0]
    _ = trimRightC (trimLeftC (collapseNl (trimLeftC s))) :=
        (trimRightC_trimLeftC_comm _).symm
    _ = trimRightC (trimLeftC (collapseNl s)) := by
        rw [← trimLeftC_collapse_trimLeftC s]

/-! ### C2 — URL normalization idempotency -/

/-- C2: normalizeUrl is NOT idempotent.  On `https://example.com/a//` the
function succeeds and returns `https://example.com/a/` (it strips a single
trailing slash per call), and a second application returns
`https://example.com/a`, so `normalizeUrl (normalizeUrl u) ≠ normalizeUrl u`
at this input.  The spec requires idempotency, so this is a defect of the
code (the trailing-slash rule removes one slash instead of all). -/
theorem normalizeUrl_not_idempotent_on_double_slash :
    normalizeUrl "https://example.com/a//" = Except.ok "https://example.com/a/" ∧
    normalizeUrl "https://example.com/a/" = Except.ok "https://example.com/a" ∧
    ("https://example.com/a/" : String) ≠ "https://example.com/a" :=
  ⟨rfl, rfl, by decide⟩

/-! ### C7 — stripping markers from the enhanced markdown -/

/-- C7 counterexample: applying only the marker-strip regex and the newline
collapse (the transformation as the claim words it) to an enhanced markdown
that ends in a structural marker leaves a trailing newline, while the stored
plain markdown is trimmed — the two differ, so the claimed transformation
does not yield the stored plain markdown exactly. -/
theorem strip_collapse_without_trim_differs :
    c7ClaimTransform faqMarked = "\nHello\n" ∧
    plainMarkdownOf faqMarked = "Hello" ∧
    c7ClaimTransform faqMarked ≠ plainMarkdownOf faqMarked := by
  refine ⟨by decide, by decide, ?_⟩
  decide

/-- C7 (amended): for every enhanced markdown string, the source's
`stripStructuralMarkers` — the marker-strip regex, the newline collapse, and
a final trim — yields exactly the plain markdown computed and stored by
`htmlToEnhancedMarkdown` (which trims before and after the collapse). -/
theorem stripStructuralMarkers_eq_plainMarkdown (marked : String) :
    stripStructuralMarkers marked = plainMarkdownOf marked :=
  congrArg String.mk (jsTrim_collapse_jsTrim (stripMarkersS marked).data).symm

/-! ### C8 — navigation-list suppression threshold -/

/-- C8 counterexample: a list of 5 items containing 4 links has a link ratio
of exactly 80%, which the claim says is dropped; the `smartLists` filter
requires the ratio to be strictly greater than 0.8, so the list is kept. -/
theorem exact_eighty_percent_list_kept :
    smartListsIsNav 5 4 = false ∧ ((4 : Rat) / 5) ≥ (0.8 : Rat) := by
  constructor
  · simp only [smartListsIsNav]
    norm_num
  · norm_num

/-- C8 (amended): a `ul`/`ol` with at least one `li` is classified as a
navigation list and dropped from the Markdown iff its `a`-to-`li` ratio is
STRICTLY greater than 80% (`5·links > 4·items`); lists at or below the 80%
ratio are kept. -/
theorem smartLists_drop_iff_ratio_strictly_gt (liCount aCount : Nat)
    (hli : 0 < liCount) :
    smartListsIsNav liCount aCount = true ↔ 5 * aCount > 4 * liCount := by
  have hq : (0 : Rat) < (liCount : Rat) := by exact_mod_cast hli
  unfold smartListsIsNav
  rw [Bool.and_eq_true, decide_eq_true_eq, decide_eq_true_eq]
  rw [gt_iff_lt, show (0.8 : Rat) = 4 / 5 by norm_num,
    div_lt_div_iff₀ (by norm_num) hq]
  rw [show ((4 : Rat) * liCount) = ((4 * liCount : Nat) : Rat) by push_cast; ring,
    show ((aCount : Rat) * 5) = ((5 * aCount : Nat) : Rat) by push_cast; ring,
    Nat.cast_lt]
  constructor
  · rintro ⟨-, h⟩
    omega
  · intro h
    exact ⟨hli, by omega⟩

/-- C8 witness: the spec's scenario — 10 items, each a link — is dropped. -/
theorem smartLists_drop_iff_ratio_strictly_gt_witness :
    0 < 10 ∧ smartListsIsNav 10 10 = true :=
  ⟨by decide, (smartLists_drop_iff_ratio_strictly_gt 10 10 (by decide)).mpr (by decide)⟩

/-! ### C1 — content-hash-gated upsert frame -/

/-- C1 counterexample: an upsert that hits the stored row and carries the
SAME content hash leaves `html_content`/`clean_html` untouched, but still
changes `crawl_status` (always taken from the new values) and `markdown`
(COALESCE takes the new non-null value) — refuting the claim that only
`last_crawled_at`, `run_id` and `status_code` may change. -/
theorem upsert_same_hash_other_fields_change :
    strParam sameHashInsert.content_hash = demoOldRow.content_hash ∧
    (upsertPage (some demoOldRow) sameHashInsert 2).html_content = demoOldRow.html_content ∧
    (upsertPage (some demoOldRow) sameHashInsert 2).clean_html = demoOldRow.clean_html ∧
    (upsertPage (some demoOldRow) sameHashInsert 2).crawl_status ≠ demoOldRow.crawl_status ∧
    (upsertPage (some demoOldRow) sameHashInsert 2).markdown ≠ demoOldRow.markdown := by
  refine ⟨by decide, by decide, by decide, by decide, by decide⟩

/-- C1 (amended): on a conflicting upsert whose bound `content_hash`
parameter equals the stored hash, `html_content` and `clean_html` are
preserved byte-identical; and in general they are overwritten only when the
new bound hash is non-null and differs from the stored hash (NULL-coalesced
to the empty string, as in the SQL).  Fields outside this gate —
`status_code`, `crawl_status`, `redirect_chain`, `fetch_mode`, `last_error`,
`last_crawled_at`, `run_id`, and the COALESCE metadata including `markdown` —
follow their own update rules and may change even under an equal hash. -/
theorem upsertPage_hash_gate_frame (old : PageRow) (p : CrawlerPageInsert) (now : Nat) :
    (strParam p.content_hash = old.content_hash →
      (upsertPage (some old) p now).html_content = old.html_content ∧
      (upsertPage (some old) p now).clean_html = old.clean_html) ∧
    ((upsertPage (some old) p now).html_content ≠ old.html_content ∨
        (upsertPage (some old) p now).clean_html ≠ old.clean_html →
      ∃ h, strParam p.content_hash = some h ∧ h ≠ old.content_hash.getD "") := by
  cases hch : strParam p.content_hash with
  | none =>
    constructor
    · intro _
      constructor <;> simp [upsertPage, hch]
    · intro hne
      exfalso
      rcases hne with hne | hne <;> simp [upsertPage, hch] at hne
  | some h =>
    by_cases hgate : h = old.content_hash.getD ""
    · constructor
      · intro _
        constructor <;> simp [upsertPage, hch, hgate]
      · intro hne
        exfalso
        rcases hne with hne | hne <;> simp [upsertPage, hch, hgate] at hne
    · constructor
      · intro heq
        exfalso
        apply hgate
        have hoc : old.content_hash = some h := heq.symm
        rw [hoc]
        rfl
      · intro _
        exact ⟨h, rfl, hgate⟩

/-- C1 witness: the hash-equality branch of `upsertPage_hash_gate_frame`
applied to the concrete fixture. -/
theorem upsertPage_hash_gate_frame_witness :
    strParam sameHashInsert.content_hash = demoOldRow.content_hash ∧
    (upsertPage (some demoOldRow) sameHashInsert 2).html_content = demoOldRow.html_content ∧
    (upsertPage (some demoOldRow) sameHashInsert 2).clean_html = demoOldRow.clean_html := by
  have h := (upsertPage_hash_gate_frame demoOldRow sameHashInsert 2).1 (by decide)
  exact ⟨by decide, h.1, h.2⟩

/-! ### C5 — COALESCE metadata on conflicting upserts -/

/-- C5 counterexample: an ERROR re-crawl that supplies no metadata (the
`failedRequestHandler` insert) does NOT leave `word_count` unchanged — the
JS binding `page.word_count || 0` makes the parameter 0 (never NULL), so the
SQL `COALESCE(VALUES(word_count), word_count)` always takes the new value
and the stored 500 is overwritten with 0. -/
theorem error_recrawl_resets_word_count :
    demoOldRow.word_count = 500 ∧
    (upsertPage (some demoOldRow)
      (mkFailedInsert "https://example.com/page" "https://example.com/page"
        "net::ERR_TIMED_OUT" "run-2") 7).word_count = 0 := by
  refine ⟨by decide, by decide⟩

/-- C5 (amended): on an ERROR re-crawl that supplies no metadata, the fields
`title`, `h1`, `meta_description`, `extraction_method`, `junk_score`,
`content_hash` and `sitemap_type_hint` keep their stored values (their bound
parameters are NULL, so COALESCE keeps the old column), `html_content`,
`clean_html` and `markdown` are preserved as well, but `word_count` is reset
to 0 (its parameter is coerced with `|| 0` and is never NULL).
`nav_structure` and `structural_stats` are not columns of this upsert at all
and cannot be changed by it. -/
theorem upsert_error_recrawl_coalesce (old : PageRow) (now : Nat) (err rid : String) :
    ((upsertPage (some old) (mkFailedInsert old.final_url old.final_url err rid) now).title
        = old.title) ∧
    ((upsertPage (some old) (mkFailedInsert old.final_url old.final_url err rid) now).h1
        = old.h1) ∧
    ((upsertPage (some old) (mkFailedInsert old.final_url old.final_url err rid) now).meta_description
        = old.meta_description) ∧
    ((upsertPage (some old) (mkFailedInsert old.final_url old.final_url err rid) now).extraction_method
        = old.extraction_method) ∧
    ((upsertPage (some old) (mkFailedInsert old.final_url old.final_url err rid) now).junk_score
        = old.junk_score) ∧
    ((upsertPage (some old) (mkFailedInsert old.final_url old.final_url err rid) now).content_hash
        = old.content_hash) ∧
    ((upsertPage (some old) (mkFailedInsert old.final_url old.final_url err rid) now).sitemap_type_hint
        = old.sitemap_type_hint) ∧
    ((upsertPage (some old) (mkFailedInsert old.final_url old.final_url err rid) now).html_content
        = old.html_content) ∧
    ((upsertPage (some old) (mkFailedInsert old.final_url old.final_url err rid) now).clean_html
        = old.clean_html) ∧
    ((upsertPage (some old) (mkFailedInsert old.final_url old.final_url err rid) now).markdown
        = old.markdown) ∧
    ((upsertPage (some old) (mkFailedInsert old.final_url old.final_url err rid) now).word_count
        = 0) := by
  refine ⟨?_, ?_, ?_, ?_, ?_, ?_, ?_, ?_, ?_, ?_, ?_⟩ <;>
    simp [upsertPage, mkFailedInsert, strParam, ratParam, wcParam, Option.or]

/-! ### C3 — content_hash vs stored clean_html -/

/-- C3 counterexample: for a page whose cleaned body is empty, the
requestHandler computes the hash over `extraction.cleanHtml || htmlContent`,
i.e. over the RAW html, while `clean_html` binds as NULL (empty string
parameter) — so a row exists with a non-null `content_hash` and no stored
`clean_html` whose hash it could be.  The MD5 placeholder `"#" ++ s` stands
for any hash function that is non-empty on this input (real MD5 hex always
is). -/
theorem content_hash_without_clean_html :
    emptyCleanExtraction =
      { cleanHtml := "", extractionMethod := .fallback, wordCount := 0, success := true } ∧
    emptyCleanRow.content_hash = some ("#" ++ "<script>a</script>") ∧
    emptyCleanRow.clean_html = none := by
  refine ⟨by decide, by decide, by decide⟩

/-- C3 (amended): whenever extraction produces non-empty clean HTML (and the
MD5 output is non-empty, as real MD5 hex always is), the stored row satisfies
the claim: `clean_html` is stored as-is and `content_hash` is exactly the MD5
of the whitespace-normalized stored `clean_html`.  When the extracted clean
HTML is empty, the hash is instead computed over the raw `html_content` and
`clean_html` is stored NULL. -/
theorem content_hash_matches_clean_html (md5 : String → String)
    (finalUrl requestedUrl : String) (status : Int) (html : String)
    (extraction : ExtractionResult) (mdv : String) (t h1v d : Option String)
    (js : Rat) (hint : Option String) (rid : String) (now : Nat)
    (hclean : extraction.cleanHtml ≠ "")
    (hmd5 : md5 (normalizeWsS extraction.cleanHtml) ≠ "") :
    (upsertPage none
        (mkCrawledInsert md5 finalUrl requestedUrl status html extraction mdv
          t h1v d js hint rid) now).clean_html = some extraction.cleanHtml ∧
    (upsertPage none
        (mkCrawledInsert md5 finalUrl requestedUrl status html extraction mdv
          t h1v d js hint rid) now).content_hash =
      some (md5 (normalizeWsS extraction.cleanHtml)) := by
  constructor
  · simp [upsertPage, mkCrawledInsert, strParam, hclean]
  · have hjs : jsOrS extraction.cleanHtml html = extraction.cleanHtml := by
      simp [jsOrS, hclean]
    simp [upsertPage, mkCrawledInsert, strParam, hashHtmlContent, hjs, hclean, hmd5]

/-- C3 witness: `content_hash_matches_clean_html` at a concrete page with
non-empty clean HTML. -/
theorem content_hash_matches_clean_html_witness :
    ("<p>hello</p>" : String) ≠ "" ∧
    ((fun s => "#" ++ s) (normalizeWsS "<p>hello</p>") : String) ≠ "" ∧
    (upsertPage none
        (mkCrawledInsert (fun s => "#" ++ s) "https://example.com/p"
          "https://example.com/p" 200 "<html><p>hello</p></html>"
          { cleanHtml := "<p>hello</p>", extractionMethod := .semantic,
            wordCount := 1, success := true } "md" none none none 0 none "run-1")
        3).content_hash = some ("#" ++ normalizeWsS "<p>hello</p>") := by
  refine ⟨by decide, by decide, ?_⟩
  exact (content_hash_matches_clean_html (fun s => "#" ++ s)
    "https://example.com/p" "https://example.com/p" 200 "<html><p>hello</p></html>"
    { cleanHtml := "<p>hello</p>", extractionMethod := .semantic,
      wordCount := 1, success := true } "md" none none none 0 none "run-1" 3
    (by decide) (by decide)).2

/-! ### C4 — soft-404 classification -/

/-- C4 counterexample: the page from the spec's soft-404 scenario — status
200, title `Page Not Found`, a 40-word body — satisfies every hypothesis of
the claim (the title matches a known 404 phrase and the word count is below
150), yet the requestHandler stores it with `crawl_status = OK`: its
classification looks only at the status code and never consults the
soft-404 patterns, so SOFT_404 is never assigned. -/
theorem soft404_page_stored_as_OK :
    soft404TitleMatch "Page Not Found" = true ∧
    soft404Extraction.wordCount = 40 ∧ soft404Extraction.wordCount < 150 ∧
    classifyCrawlStatus 200 = CrawlStatus.OK ∧
    soft404Row.crawl_status = CrawlStatus.OK ∧
    soft404Row.word_count = 40 ∧
    CrawlStatus.OK ≠ CrawlStatus.SOFT_404 := by
  refine ⟨by decide, by decide, by decide, by decide, by decide, by decide, by decide⟩

/-- C4 (amended): every fetched page with a 2xx status is stored with
`crawl_status = OK` and with `word_count` equal to the extraction's word
count, regardless of whether its title or body matches a soft-404 phrase —
the `SOFT_404` status is defined but never assigned by the crawler. -/
theorem crawl_status_ok_for_2xx (md5 : String → String)
    (finalUrl requestedUrl : String) (status : Int) (html : String)
    (extraction : ExtractionResult) (mdv : String) (t h1v d : Option String)
    (js : Rat) (hint : Option String) (rid : String) (now : Nat)
    (h200 : 200 ≤ status) (h300 : status < 300) :
    (upsertPage none
        (mkCrawledInsert md5 finalUrl requestedUrl status html extraction mdv
          t h1v d js hint rid) now).crawl_status = CrawlStatus.OK ∧
    (upsertPage none
        (mkCrawledInsert md5 finalUrl requestedUrl status html extraction mdv
          t h1v d js hint rid) now).word_count = (extraction.wordCount : Int) := by
  have hclass : classifyCrawlStatus status = CrawlStatus.OK := by
    unfold classifyCrawlStatus
    rw [if_neg (by simp; omega), if_neg (by omega)]
  constructor
  · simp [upsertPage, mkCrawledInsert, hclass]
  · simp [upsertPage, mkCrawledInsert, wcParam]

/-- C4 witness: the amended theorem at the concrete soft-404 scenario. -/
theorem crawl_status_ok_for_2xx_witness :
    (200 : Int) ≤ 200 ∧ (200 : Int) < 300 ∧
    soft404Row.crawl_status = CrawlStatus.OK := by
  refine ⟨by decide, by decide, ?_⟩
  exact (crawl_status_ok_for_2xx (fun s => "#" ++ s) "https://example.com/missing"
    "https://example.com/missing" 200
    "<html><body><p>forty words of body text</p></body></html>"
    soft404Extraction "md" (some "Page Not Found") (some "Page Not Found")
    none 0 none "run-1" 1 (by decide) (by decide)).1

/-! ### C6 — extraction method of the domain-override branch -/

/-- C6 counterexample: a host with configured override selectors whose first
selector extracts 150 words of content records `extraction_method =
cms_pattern` — the code's `ExtractionMethod` type has no `domain_override`
value and the domain branch tags its result `cms_pattern`. -/
theorem domain_override_records_cms_pattern :
    extractContent overridePrims "<html>x</html>" "https://example.com"
        (some ["#main"]) none =
      { cleanHtml := overrideContent, extractionMethod := .cms_pattern,
        wordCount := 150, success := true } := by
  decide

/-- C6 (amended): whenever extraction succeeds through the domain override
selectors configured for the page's host (a selector returns non-empty
content meeting the 100-word threshold), the extraction method recorded is
`cms_pattern` — not a distinct `domain_override` value, which does not exist
in the code's `ExtractionMethod` type. -/
theorem domain_selector_success_method_cms_pattern (P : ExtractPrims)
    (html url : String) (ds : List String) (rs : Option (List String)) (e : String)
    (hhtml : html ≠ "") (hds : 0 < ds.length)
    (hsel : P.extractBySelectors (cleanedInput P html rs) ds = some e)
    (he : e ≠ "") (hwc : READABILITY_MIN_WORDS ≤ P.countWords e) :
    extractContent P html url (some ds) rs =
      { cleanHtml := e, extractionMethod := .cms_pattern,
        wordCount := P.countWords e, success := true } := by
  unfold extractContent
  rw [if_neg hhtml]
  simp only [hsel, hds, if_pos hds, if_neg he, ge_iff_le, hwc, if_pos hwc]
  simp [he]

/-- C6 witness: the amended theorem at the concrete override fixture. -/
theorem domain_selector_success_method_cms_pattern_witness :
    ("<html>x</html>" : String) ≠ "" ∧
    overridePrims.extractBySelectors
        (cleanedInput overridePrims "<html>x</html>" none) ["#main"] =
      some overrideContent ∧
    (extractContent overridePrims "<html>x</html>" "https://example.com"
        (some ["#main"]) none).extractionMethod = ExtractionMethod.cms_pattern := by
  refine ⟨by decide, by decide, ?_⟩
  rw [domain_selector_success_method_cms_pattern overridePrims "<html>x</html>"
    "https://example.com" ["#main"] none overrideContent (by decide) (by decide)
    (by decide) (by decide) (by decide)]

/-! ### C9 — NavItem order values -/

theorem extractSubmenuItems_depth_le (resolve : String → String) (isExt : String → Bool) :
    ∀ (li : List LiNode) (parents : List String) (dep i : Nat),
      ∀ it ∈ extractSubmenuItems resolve isExt li parents dep i, dep ≤ it.depth := by
  intro li parents dep i
  induction li, parents, dep, i using extractSubmenuItems.induct with
  | resolve a => exact resolve a
  | isExt a => exact isExt a
  | case1 _ _ _ =>
    intro it hit
    simp [extractSubmenuItems] at hit
  | case2 sub rest parents dep i ih =>
    intro it hit
    rw [extractSubmenuItems] at hit
    exact ih it hit
  | case3 sub rest parents dep i l h1 ih =>
    intro it hit
    rw [extractSubmenuItems] at hit
    simp only [if_pos h1] at hit
    exact ih it hit
  | case4 sub rest parents dep i l h1 h2 ih =>
    intro it hit
    rw [extractSubmenuItems] at hit
    simp only [if_neg h1, if_pos h2] at hit
    exact ih it hit
  | case5 sub rest parents dep i l h1 h2 ih2 ih1 =>
    intro it hit
    rw [extractSubmenuItems] at hit
    simp only [if_neg h1, if_neg h2] at hit
    rcases List.mem_cons.mp hit with h | h
    · subst h
      simp
    · rcases List.mem_append.mp h with h | h
      · by_cases hs : sub.isEmpty
        · rw [if_pos hs] at h
          simp at h
        · rw [if_neg hs] at h
          by_cases hdep : dep + 1 > 3
          · rw [if_pos hdep] at h
            simp at h
          · rw [if_neg hdep] at h
            exact Nat.le_of_succ_le (ih1 it h)
      · exact ih2 it h

theorem nav_invariant_extend (items : List NavItem) (item : NavItem)
    (extra : List NavItem)
    (hinv : ∀ (j : Nat) (it : NavItem), items[j]? = some it → it.depth = 0 → it.order = j)
    (_hd0 : item.depth = 0) (hord : item.order = items.length)
    (hextra : ∀ it ∈ extra, 1 ≤ it.depth) :
    ∀ (j : Nat) (it : NavItem),
      ((items ++ [item]) ++ extra)[j]? = some it → it.depth = 0 → it.order = j := by
  intro j it hj hjd
  by_cases hj1 : j < items.length + 1
  · rw [List.getElem?_append, if_pos (by simpa using hj1)] at hj
    by_cases hj2 : j < items.length
    · rw [List.getElem?_append, if_pos hj2] at hj
      exact hinv j it hj hjd
    · have hje : j = items.length := by omega
      subst hje
      rw [List.getElem?_append, if_neg (by omega)] at hj
      simp at hj
      rw [← hj, hord]
  · rw [List.getElem?_append, if_neg (by simp; omega)] at hj
    have hmem : it ∈ extra := List.getElem?_mem hj
    have := hextra it hmem
    omega

theorem extractMenuItemsGo_depth0_order (resolve : String → String) (isExt : String → Bool) :
    ∀ (rest : List LiNode) (items : List NavItem),
      (∀ (j : Nat) (it : NavItem), items[j]? = some it → it.depth = 0 → it.order = j) →
      ∀ (j : Nat) (it : NavItem),
        (extractMenuItemsGo resolve isExt rest items)[j]? = some it →
        it.depth = 0 → it.order = j := by
  intro rest
  induction rest with
  | nil =>
    intro items hinv j it hj hjd
    simp only [extractMenuItemsGo] at hj
    exact hinv j it hj hjd
  | cons hd tl ih =>
    intro items hinv j it hj hjd
    obtain ⟨link, sub⟩ := hd
    cases link with
    | none =>
      simp only [extractMenuItemsGo] at hj
      exact ih items hinv j it hj hjd
    | some l =>
      simp only [extractMenuItemsGo] at hj
      by_cases hlab : (l.label == "") = true
      · rw [if_pos hlab] at hj
        exact ih items hinv j it hj hjd
      · rw [if_neg hlab] at hj
        by_cases hskip :
            (!(!sub.isEmpty) &&
              (l.href == "" || l.href == "#" || strStartsWith l.href "javascript:")) = true
        · rw [if_pos hskip] at hj
          exact ih items hinv j it hj hjd
        · rw [if_neg hskip] at hj
          by_cases hsub : (!sub.isEmpty) = true
          · rw [if_pos hsub] at hj
            refine ih _ ?_ j it hj hjd
            exact nav_invariant_extend items _ _ hinv rfl rfl
              (fun it2 hit2 => extractSubmenuItems_depth_le resolve isExt sub
                [l.label] 1 0 it2 hit2)
          · rw [if_neg hsub] at hj
            refine ih _ ?_ j it hj hjd
            have hbase := nav_invariant_extend items
              { url := if l.href != "" && l.href != "#" then resolve l.href else "#",
                label := l.label, depth := 0, order := items.length,
                parent_labels := [], is_external := isExt l.href,
                link_type := if l.hasImg then "image" else "text" }
              [] hinv rfl rfl (by intro it2 hit2; simp at hit2)
            simpa using hbase

/-- C9 counterexample: in a primary-nav container whose first top-level item
has one submenu child, the two depth-0 items receive order values `[0, 2]`
(`order := items.length` counts the interleaved submenu item), not the dense
zero-based `[0, 1]` the claim requires. -/
theorem menu_orders_not_dense :
    (((extractMenuItems id (fun _ => false) demoMenu).filter
        (fun it => it.depth == 0)).map NavItem.order) = [0, 2] ∧
    ([0, 2] : List Nat) ≠ List.range 2 := by
  constructor
  · simp [extractMenuItems, extractMenuItemsGo, extractSubmenuItems, demoMenu,
      strStartsWith, dropLit]
  · decide

/-- C9 (amended): in every extracted menu cluster, a depth-0 item's `order`
equals its position in the FLATTENED item list (submenu descendants emitted
before it included), so depth-0 orders are strictly increasing but not dense;
submenu items (depth ≥ 1) carry their li index within their own parent's
submenu, restarting at 0 per parent. -/
theorem menu_depth0_order_eq_flat_index (resolve : String → String)
    (isExt : String → Bool) (container : List LiNode) (j : Nat) (it : NavItem)
    (hj : (extractMenuItems resolve isExt container)[j]? = some it)
    (hd : it.depth = 0) : it.order = j :=
  extractMenuItemsGo_depth0_order resolve isExt container []
    (by intro j2 it2 h2; simp at h2) j it hj hd

/-- C9 witness: `menu_depth0_order_eq_flat_index` applied to the first item
of the concrete menu fixture. -/
theorem menu_depth0_order_eq_flat_index_witness :
    ∃ it : NavItem, (extractMenuItems id (fun _ => false) demoMenu)[0]? = some it ∧
      it.depth = 0 ∧ it.order = 0 := by
  have hj : (extractMenuItems id (fun _ => false) demoMenu)[0]? =
      some { url := "/services", label := "Services", depth := 0, order := 0,
             parent_labels := [], is_external := false, link_type := "text" } := by
    simp [extractMenuItems, extractMenuItemsGo, extractSubmenuItems, demoMenu,
      strStartsWith, dropLit]
  exact ⟨_, hj, rfl,
    menu_depth0_order_eq_flat_index id (fun _ => false) demoMenu 0 _ hj rfl⟩

/-! ### C10 — content-link URL deduplication -/

theorem extractContentLinksGo_map_url (resolve : String → String)
    (isExt : String → Bool) (baseUrl : String) (total : Nat) :
    ∀ (links : List RawLink) (i : Nat) (seen : List String) (cur : Option String),
      (extractContentLinksGo resolve isExt baseUrl total i seen cur links).map
          ContentLink.url
        = dedupKeepFirst seen (candidateUrls resolve links) := by
  intro links
  induction links with
  | nil =>
    intro i seen cur
    simp [extractContentLinksGo, candidateUrls, dedupKeepFirst]
  | cons lk rest ih =>
    intro i seen cur
    by_cases h1 : (lk.href == "" || lk.href == "#" ||
        strStartsWith lk.href "javascript:") = true
    · have hel : linkEligible lk = false := by
        simp only [linkEligible, h1]
        simp
      rw [extractContentLinksGo, if_pos h1]
      rw [show candidateUrls resolve (lk :: rest) = candidateUrls resolve rest by
        simp [candidateUrls, List.filter_cons, hel]]
      exact ih (i + 1) seen cur
    · rw [extractContentLinksGo, if_neg h1]
      by_cases h2 : lk.excluded = true
      · have hel : linkEligible lk = false := by
          simp only [linkEligible, h2]
          simp
        rw [if_pos h2]
        rw [show candidateUrls resolve (lk :: rest) = candidateUrls resolve rest by
          simp [candidateUrls, List.filter_cons, hel]]
        exact ih (i + 1) seen cur
      · rw [if_neg h2]
        by_cases h3 : (lk.label == "") = true
        · have hel : linkEligible lk = false := by
            simp only [linkEligible, h3]
            simp
          rw [if_pos h3]
          rw [show candidateUrls resolve (lk :: rest) = candidateUrls resolve rest by
            simp [candidateUrls, List.filter_cons, hel]]
          exact ih (i + 1) seen cur
        · rw [if_neg h3]
          have hel : linkEligible lk = true := by
            simp only [linkEligible, h1, h2, h3]
            simp at h1 h2 h3 ⊢
          have hcand : candidateUrls resolve (lk :: rest) =
              resolve lk.href :: candidateUrls resolve rest := by
            simp [candidateUrls, List.filter_cons, hel]
          rw [hcand]
          by_cases h4 : seen.contains (resolve lk.href) = true
          · rw [if_pos h4, dedupKeepFirst, if_pos h4]
            exact ih (i + 1) seen cur
          · rw [if_neg h4, dedupKeepFirst, if_neg h4]
            simp only [List.map_cons]
            rw [ih (i + 1) (resolve lk.href :: seen) _]

theorem dedupKeepFirst_not_in_seen :
    ∀ (l seen : List String) (u : String),
      u ∈ dedupKeepFirst seen l → seen.contains u = false := by
  intro l
  induction l with
  | nil =>
    intro seen u h
    simp [dedupKeepFirst] at h
  | cons v vs ih =>
    intro seen u h
    by_cases hc : seen.contains v = true
    · rw [dedupKeepFirst, if_pos hc] at h
      exact ih seen u h
    · rw [dedupKeepFirst, if_neg hc] at h
      rcases List.mem_cons.mp h with h | h
      · subst h
        simpa using hc
      · have := ih (v :: seen) u h
        simp only [List.contains_cons] at this
        simp at this ⊢
        intro hu
        exact this.2 hu

theorem dedupKeepFirst_nodup : ∀ (l seen : List String), (dedupKeepFirst seen l).Nodup := by
  intro l
  induction l with
  | nil => intro seen; simp [dedupKeepFirst]
  | cons v vs ih =>
    intro seen
    by_cases hc : seen.contains v = true
    · rw [dedupKeepFirst, if_pos hc]
      exact ih seen
    · rw [dedupKeepFirst, if_neg hc]
      refine List.nodup_cons.mpr ⟨?_, ih (v :: seen)⟩
      intro hmem
      have := dedupKeepFirst_not_in_seen vs (v :: seen) v hmem
      simp [List.contains_cons] at this

/-- C10: the `content_links` produced by `extractContentLinks` never contain
two entries with the same normalized URL: the output's URL list is exactly
the first-occurrence deduplication of the eligible candidates in document
order, and it has no duplicates. -/
theorem content_links_urls_nodup (resolve : String → String) (isExt : String → Bool)
    (baseUrl : String) (links : List RawLink) :
    ((extractContentLinks resolve isExt baseUrl links).map ContentLink.url)
        = dedupKeepFirst [] (candidateUrls resolve links) ∧
    ((extractContentLinks resolve isExt baseUrl links).map ContentLink.url).Nodup := by
  have h := extractContentLinksGo_map_url resolve isExt baseUrl links.length links 0 [] none
  refine ⟨h, ?_⟩
  rw [show extractContentLinks resolve isExt baseUrl links =
    extractContentLinksGo resolve isExt baseUrl links.length 0 [] none links from rfl, h]
  exact dedupKeepFirst_nodup _ _

end ACrawler
